import Mathlib

/-!
Verification development for the `daily_stock_analysis` web frontend:
the typed trading REST client (`src/api/trading.ts`, given as
`src/unnamed/part_000`) and the trading dashboard view
(`src/apps/dsa-web/src/pages/TradingPage.tsx`).

The JavaScript values exchanged with the backend are modelled by a
`Json` inductive; JS numbers (which include `NaN`, produced by
`parseFloat` / `parseInt` on bad input) are modelled by `JsNumber`.
Request bodies and query parameters are association lists of key/value
pairs, in insertion order, exactly as the source builds its
`requestData` records.  Event handlers of the view are modelled as pure
functions from their input state (and the mocked outcome of the awaited
API call) to the list of observable actions they perform, in order.
-/

/-- Model of a JavaScript number: either `NaN` or an exact rational value
(the source never relies on float rounding). -/

inductive JsNumber where
  | nan
  | val (q : Rat)
deriving DecidableEq, Repr

/-- Model of a JSON / JavaScript value as exchanged with the backend. -/

inductive Json where
  | null
  | bool (b : Bool)
  | num (n : JsNumber)
  | str (s : String)
  | arr (elems : List Json)
  | obj (members : List (String × Json))
deriving Inhabited

/-- Key-casing step of the Data Mapper on one key, as a character scan: an
underscore is dropped and the next character is upper-cased; every other
character passes through.  The flag records whether the previous character
was an underscore. -/

def camelChars : Bool → List Char → List Char
  | _, [] => []
  | up, c :: rest =>
      if c = '_' then camelChars true rest
      else (if up then c.toUpper else c) :: camelChars false rest

/-- Rewrites one snake_case object key to camelCase. -/

def camelKey (s : String) : String := ⟨camelChars false s.data⟩

mutual
/-- Modelled from the spec: the Data Mapper `toCamelCase` is imported by
`src/unnamed/part_000` from `./utils`, whose source is not part of the
given files.  Per spec §4.1 it rewrites every snake_case object key to
camelCase, recursively through nested objects and arrays, and leaves
scalars and string values untouched. -/
def toCamelCase : Json → Json
  | .null => .null
  | .bool b => .bool b
  | .num n => .num n
  | .str s => .str s
  | .arr es => .arr (toCamelCaseList es)
  | .obj ms => .obj (toCamelCaseFields ms)
/-- Elementwise Data Mapper on the elements of a JSON array. -/
def toCamelCaseList : List Json → List Json
  | [] => []
  | e :: es => toCamelCase e :: toCamelCaseList es
/-- Memberwise Data Mapper on the members of a JSON object. -/
def toCamelCaseFields : List (String × Json) → List (String × Json)
  | [] => []
  | (k, v) :: ms => (camelKey k, toCamelCase v) :: toCamelCaseFields ms
end

/-- Character allowed in a snake_case key: a lower-case letter, a digit, or
an underscore. -/

def isSnakeChar (c : Char) : Bool := c.isLower || c.isDigit || c = '_'

/-- Recognizes a snake_case key. -/

def isSnakeKey (s : String) : Bool := s.data.all isSnakeChar

mutual
/-- Recognizes a JSON value all of whose object keys, recursively, are
snake_case. -/
def snakeKeyed : Json → Bool
  | .null => true
  | .bool _ => true
  | .num _ => true
  | .str _ => true
  | .arr es => snakeKeyedList es
  | .obj ms => snakeKeyedFields ms
/-- Array form of `snakeKeyed`. -/
def snakeKeyedList : List Json → Bool
  | [] => true
  | e :: es => snakeKeyed e && snakeKeyedList es
/-- Object form of `snakeKeyed`. -/
def snakeKeyedFields : List (String × Json) → Bool
  | [] => true
  | (k, v) :: ms => isSnakeKey k && snakeKeyed v && snakeKeyedFields ms
end

/-!
Trading Client (`tradingApi` in `src/unnamed/part_000`).  Each operation
is modelled by the request it issues: the path, query parameters and the
request body it builds.  Bodies are association lists in the order the
source assigns the keys of its `requestData` record.
-/

/-- Model of `PlaceOrderRequest` (`src/unnamed/part_000` lines 50-55):
`price` is an optional field of the request. -/

structure PlaceOrderRequest where
  stockCode : String
  orderType : String
  quantity : Int
  price : Option JsNumber
deriving DecidableEq, Repr

/-- Model of `SetStopLossRequest` (`src/unnamed/part_000` lines 92-98):
all four threshold fields are optional. -/

structure SetStopLossRequest where
  stockCode : String
  takeProfitPrice : Option JsNumber
  takeProfitPct : Option JsNumber
  stopLossPrice : Option JsNumber
  stopLossPct : Option JsNumber
deriving DecidableEq, Repr

/-- Body built by `tradingApi.placeOrder` (`src/unnamed/part_000` lines
193-200): `requestData` starts with `stock_code`, `order_type` and
`quantity`, and `price` is assigned only when `request.price` is not
undefined. -/

def placeOrderBody (r : PlaceOrderRequest) : List (String × Json) :=
  let requestData : List (String × Json) :=
    [("stock_code", Json.str r.stockCode),
     ("order_type", Json.str r.orderType),
     ("quantity", Json.num (JsNumber.val (r.quantity : Rat)))]
  match r.price with
  | some p => requestData ++ [("price", Json.num p)]
  | none => requestData

/-- Body built by `tradingApi.setStopLoss` (`src/unnamed/part_000` lines
213-227): `requestData` starts with `stock_code`, and each of the four
snake_case threshold keys is assigned, in source order, only when the
corresponding camelCase field of the request is not undefined. -/

def setStopLossBody (r : SetStopLossRequest) : List (String × Json) :=
  let d0 : List (String × Json) := [("stock_code", Json.str r.stockCode)]
  let d1 := match r.takeProfitPrice with
    | some v => d0 ++ [("take_profit_price", Json.num v)]
    | none => d0
  let d2 := match r.takeProfitPct with
    | some v => d1 ++ [("take_profit_pct", Json.num v)]
    | none => d1
  let d3 := match r.stopLossPrice with
    | some v => d2 ++ [("stop_loss_price", Json.num v)]
    | none => d2
  match r.stopLossPct with
  | some v => d3 ++ [("stop_loss_pct", Json.num v)]
  | none => d3

/-- Query parameters sent by `tradingApi.getOrders` (`src/unnamed/part_000`
lines 180-184): `limit` is a defaulted parameter, so a call with no
argument (modelled by `none`) uses the default value `50`. -/

def getOrdersParams (limit : Option Int) : List (String × Json) :=
  [("limit", Json.num (JsNumber.val ((limit.getD 50 : Int) : Rat)))]

/-- Field access `data.stopLoss` on the mapped response object: `none`
models the JavaScript `undefined` of a missing property. -/

def getField (j : Json) (key : String) : Option Json :=
  match j with
  | .obj ms => ms.lookup key
  | _ => none

/-- Result computed by `tradingApi.getStopLoss` (`src/unnamed/part_000`
lines 239-245) from the transport outcome: a transport error propagates
as a rejection, and a response body is passed through the Data Mapper
before its `stopLoss` field is returned. -/

def getStopLossResult (response : Except String Json) : Except String (Option Json) :=
  match response with
  | .error e => .error e
  | .ok data => .ok (getField (toCamelCase data) "stopLoss")

/-- Key list that an option contributes to a body when it is set. -/

def optKey (k : String) (o : Option JsNumber) : List String :=
  if o.isSome then [k] else []

/-!
Dashboard view (`TradingPage.tsx`).  The handlers are modelled as pure
functions from the component state they read (form inputs) and the
mocked outcome of the awaited API call to the ordered list of observable
actions they perform.  JavaScript string and number primitives used by
the handlers (`trim`, `toUpperCase`, `parseInt(s, 10)`, `parseFloat`)
are modelled below.
-/

/-- Model of `String.prototype.trim`: removes leading and trailing
whitespace. -/

def jsTrim (s : String) : String :=
  ⟨((s.data.dropWhile Char.isWhitespace).reverse.dropWhile Char.isWhitespace).reverse⟩

/-- Model of `String.prototype.toUpperCase` on the basic latin range. -/

def jsToUpperCase (s : String) : String := ⟨s.data.map Char.toUpper⟩

/-- Numeric value of a list of decimal digit characters. -/

def digitsVal (ds : List Char) : Nat :=
  ds.foldl (fun n c => 10 * n + (c.toNat - '0'.toNat)) 0

/-- Model of `parseInt(s, 10)`: leading whitespace is skipped, an optional
sign is read, then the leading run of decimal digits; `none` models the
`NaN` returned when no digit is found. -/

def parseIntBase10 (s : String) : Option Int :=
  let l := s.data.dropWhile Char.isWhitespace
  let signed : Int × List Char :=
    match l with
    | '-' :: rest => (-1, rest)
    | '+' :: rest => (1, rest)
    | _ => (1, l)
  let digits := signed.2.takeWhile Char.isDigit
  if digits.isEmpty then none
  else some (signed.1 * (digitsVal digits : Int))

/-- Model of `parseFloat(s)` on finite decimal literals: leading
whitespace is skipped, an optional sign, an integer part, an optional
fractional part and an optional exponent are read; when no digit is
found the result is `NaN`. -/

def jsParseFloat (s : String) : JsNumber :=
  let l := s.data.dropWhile Char.isWhitespace
  let signed : Rat × List Char :=
    match l with
    | '-' :: rest => (-1, rest)
    | '+' :: rest => (1, rest)
    | _ => (1, l)
  let intDigits := signed.2.takeWhile Char.isDigit
  let afterInt := signed.2.dropWhile Char.isDigit
  let fracPart : List Char × List Char :=
    match afterInt with
    | '.' :: rest => (rest.takeWhile Char.isDigit, rest.dropWhile Char.isDigit)
    | _ => ([], afterInt)
  if intDigits.isEmpty ∧ fracPart.1.isEmpty then JsNumber.nan
  else
    let mantissa : Rat :=
      (digitsVal intDigits : Rat) + (digitsVal fracPart.1 : Rat) / ((10 : Rat) ^ fracPart.1.length)
    let expVal : Int :=
      match fracPart.2 with
      | 'e' :: rest | 'E' :: rest =>
        let esigned : Int × List Char :=
          match rest with
          | '-' :: r => (-1, r)
          | '+' :: r => (1, r)
          | _ => (1, rest)
        let eDigits := esigned.2.takeWhile Char.isDigit
        if eDigits.isEmpty then 0 else esigned.1 * (digitsVal eDigits : Int)
      | _ => 0
    JsNumber.val (signed.1 * mantissa * (10 : Rat) ^ expVal)

/-- Model of a rejected API call as seen by a handler's `catch` block:
`detailMessage` is the optional `error.response?.data?.detail?.message`
chain the handlers read. -/

structure ApiError where
  detailMessage : Option String
deriving DecidableEq, Repr

/-- Model of `PlaceOrderResponse` (`src/unnamed/part_000` lines 57-61). -/

structure PlaceOrderResponse where
  orderId : Int
  status : String
  message : String
deriving DecidableEq, Repr

/-- Observable actions a TradingPage handler performs, in order: API
calls it issues, messages it shows, input resets, the full batch reload
`loadData`, and closing the stop-loss modal. -/

inductive UiAction where
  | placeOrderCall (req : PlaceOrderRequest)
  | setStopLossCall (req : SetStopLossRequest)
  | deleteStopLossCall (stockCode : String)
  | loadDataAction
  | messageShown (isError : Bool) (text : String)
  | clearStockCodeInput
  | clearQuantityInput
  | closeModalAction
deriving DecidableEq, Repr

/-- Recognizes a `placeOrder` call in a handler trace. -/

def UiAction.isPlaceOrderCall : UiAction → Bool
  | .placeOrderCall _ => true
  | _ => false

/-- Recognizes a `setStopLoss` call in a handler trace. -/

def UiAction.isSetStopLossCall : UiAction → Bool
  | .setStopLossCall _ => true
  | _ => false

/-- Recognizes an error message in a handler trace. -/

def UiAction.isErrorMessage : UiAction → Bool
  | .messageShown e _ => e
  | _ => false

/-- Model of `handleBuy` (`TradingPage.tsx` lines 71-105): the guards on
the form inputs, the `placeOrder` call built from the trimmed upper-cased
stock code and the parsed quantity, and the actions taken on each outcome
of the call. -/

def handleBuy (stockCode quantity : String) (result : Except ApiError PlaceOrderResponse) :
    List UiAction :=
  if jsTrim stockCode = "" ∨ jsTrim quantity = "" then
    [.messageShown true "请输入股票代码和数量"]
  else
    match parseIntBase10 quantity with
    | none => [.messageShown true "请输入有效的数量"]
    | some qty =>
      if qty ≤ 0 then [.messageShown true "请输入有效的数量"]
      else
        UiAction.placeOrderCall
            { stockCode := jsToUpperCase (jsTrim stockCode), orderType := "buy",
              quantity := qty, price := none } ::
          match result with
          | .ok r =>
            if r.status = "filled" then
              [.messageShown false r.message, .clearStockCodeInput, .clearQuantityInput,
               .loadDataAction]
            else [.messageShown true r.message]
          | .error e => [.messageShown true (e.detailMessage.getD "买入失败")]

/-- Model of `handleSell` (`TradingPage.tsx` lines 107-141): identical to
`handleBuy` except for the order type and the fallback error text. -/

def handleSell (stockCode quantity : String) (result : Except ApiError PlaceOrderResponse) :
    List UiAction :=
  if jsTrim stockCode = "" ∨ jsTrim quantity = "" then
    [.messageShown true "请输入股票代码和数量"]
  else
    match parseIntBase10 quantity with
    | none => [.messageShown true "请输入有效的数量"]
    | some qty =>
      if qty ≤ 0 then [.messageShown true "请输入有效的数量"]
      else
        UiAction.placeOrderCall
            { stockCode := jsToUpperCase (jsTrim stockCode), orderType := "sell",
              quantity := qty, price := none } ::
          match result with
          | .ok r =>
            if r.status = "filled" then
              [.messageShown false r.message, .clearStockCodeInput, .clearQuantityInput,
               .loadDataAction]
            else [.messageShown true r.message]
          | .error e => [.messageShown true (e.detailMessage.getD "卖出失败")]

/-- Model of `handleSaveStopLoss` (`TradingPage.tsx` lines 194-234): the
early return on an empty selection, the request whose optional fields are
set only from non-empty inputs, the delete-instead-of-set branch when all
four inputs are empty, and the actions taken on each outcome of the
awaited call.  On success the handler reloads the batch and closes the
modal; `loadData` catches its own errors, so only the mutating call can
reject. -/

def handleSaveStopLoss (selectedStockCode takeProfitPrice takeProfitPct stopLossPrice stopLossPct : String)
    (outcome : Except ApiError Unit) : List UiAction :=
  if selectedStockCode = "" then []
  else
    let request : SetStopLossRequest :=
      { stockCode := selectedStockCode
        takeProfitPrice := if takeProfitPrice ≠ "" then some (jsParseFloat takeProfitPrice) else none
        takeProfitPct := if takeProfitPct ≠ "" then some (jsParseFloat takeProfitPct) else none
        stopLossPrice := if stopLossPrice ≠ "" then some (jsParseFloat stopLossPrice) else none
        stopLossPct := if stopLossPct ≠ "" then some (jsParseFloat stopLossPct) else none }
    if takeProfitPrice = "" ∧ takeProfitPct = "" ∧ stopLossPrice = "" ∧ stopLossPct = "" then
      UiAction.deleteStopLossCall selectedStockCode ::
        match outcome with
        | .ok _ => [.messageShown false "已删除止盈止损设置", .loadDataAction, .closeModalAction]
        | .error e => [.messageShown true (e.detailMessage.getD "保存失败")]
    else
      UiAction.setStopLossCall request ::
        match outcome with
        | .ok _ => [.messageShown false "止盈止损设置已保存", .loadDataAction, .closeModalAction]
        | .error e => [.messageShown true (e.detailMessage.getD "保存失败")]

/-- Read operation of the Trading Client, with the argument the call
site passes (`none` models a call with no argument, taking the TS
default). -/

inductive ReadCall where
  | getAccount
  | getPositions
  | getOrders (limit : Option Int)
  | getStopLoss (stockCode : String)
  | getAllStopLoss
  | getAccountHistory (days : Option Int)
  | getPerformanceMetrics
deriving DecidableEq, Repr

/-- Recognizes a per-stock `getStopLoss` read. -/

def ReadCall.isGetStopLoss : ReadCall → Bool
  | .getStopLoss _ => true
  | _ => false

/-- Requests issued together in the `Promise.all` array of `loadData`
(`TradingPage.tsx` lines 40-47), in source order: one parallel batch. -/

def loadDataBatch : List ReadCall :=
  [.getAccount, .getPositions, .getOrders none, .getAllStopLoss,
   .getAccountHistory (some 30), .getPerformanceMetrics]

/-- Stop-loss entry as the view consumes it: the handlers only inspect
`stockCode` (the re-keying of the list into a lookup map); the remaining
fields are carried opaquely. -/

structure StopLossEntry where
  stockCode : String
  fields : Json

/-- Local state of the TradingPage view that `loadData` commits to
(`useState` slots at `TradingPage.tsx` lines 11-31). -/

structure ViewState where
  account : Option Json
  positions : List Json
  orders : List Json
  stopLosses : List (String × StopLossEntry)
  accountHistory : List Json
  performanceMetrics : Option Json
  message : Option (Bool × String)

/-- Initial state of the view before the first load. -/

def initialViewState : ViewState :=
  { account := none, positions := [], orders := [], stopLosses := [],
    accountHistory := [], performanceMetrics := none, message := none }

/-- Outcomes of the six parallel reads of one `loadData` batch. -/

structure LoadResults where
  account : Except ApiError Json
  positions : Except ApiError (List Json)
  orders : Except ApiError (List Json)
  stopLosses : Except ApiError (List StopLossEntry)
  history : Except ApiError (List Json)
  metrics : Except ApiError Json

/-- Recognizes a rejected outcome. -/

def exceptFailed : Except ApiError α → Bool
  | .error _ => true
  | .ok _ => false

/-- True when at least one of the six parallel reads rejected, which is
exactly when the `Promise.all` of `loadData` rejects. -/

def LoadResults.anyRejected (r : LoadResults) : Bool :=
  exceptFailed r.account || exceptFailed r.positions || exceptFailed r.orders ||
    exceptFailed r.stopLosses || exceptFailed r.history || exceptFailed r.metrics

/-- JavaScript object assignment `m[k] = v`: replaces the value in place
when the key exists, otherwise appends the pair. -/

def recordSet (m : List (String × α)) (k : String) (v : α) : List (String × α) :=
  match m with
  | [] => [(k, v)]
  | (k', v') :: rest => if k' = k then (k, v) :: rest else (k', v') :: recordSet rest k v

/-- Re-keying of the stop-loss list into a lookup map by stock code
(`TradingPage.tsx` lines 54-58). -/

def buildStopLossMap (l : List StopLossEntry) : List (String × StopLossEntry) :=
  l.foldl (fun m sl => recordSet m sl.stockCode sl) []

/-- Model of `loadData` (`TradingPage.tsx` lines 38-64): the six reads
are awaited together; only when all six resolve are the results committed
to the view state, otherwise the `catch` block shows an error message and
no state slot is written. -/

def loadData (st : ViewState) (r : LoadResults) : ViewState :=
  match r.account, r.positions, r.orders, r.stopLosses, r.history, r.metrics with
  | .ok a, .ok p, .ok o, .ok sls, .ok h, .ok m =>
      { st with account := some a, positions := p, orders := o,
                accountHistory := h, performanceMetrics := some m,
                stopLosses := buildStopLossMap sls }
  | _, _, _, _, _, _ => { st with message := some (true, "加载数据失败") }

/-- Batch outcome in which the account read rejected and all other reads
resolved. -/

def loadFailResults : LoadResults :=
  { account := .error { detailMessage := none }, positions := .ok [], orders := .ok [],
    stopLosses := .ok [], history := .ok [], metrics := .ok Json.null }

/-- Validity of the order form inputs as `handleBuy`/`handleSell` check
them: non-empty trimmed stock code and quantity, and a quantity that
parses to a positive integer. -/

def orderInputValid (sc q : String) : Bool :=
  if jsTrim sc = "" ∨ jsTrim q = "" then false
  else match parseIntBase10 q with
    | none => false
    | some n => decide (0 < n)

/-- Rejection condition of the order form inputs as C10 states it: stock
code empty after trimming, quantity input empty, or a quantity parsing to
`NaN` or to a non-positive value. -/

def orderInputRejected (sc q : String) : Bool :=
  decide (jsTrim sc = "") || decide (q = "") ||
    (match parseIntBase10 q with
     | none => true
     | some n => decide (n ≤ 0))

theorem toUpper_ne_underscore (c : Char) (h : c ≠ '_') : c.toUpper ≠ '_' := by
  have hdef : c.toUpper = if c.toNat ≥ 97 ∧ c.toNat ≤ 122 then Char.ofNat (c.toNat - 32) else c := rfl
  rw [hdef]
  split
  · rename_i hr
    intro hEq
    obtain ⟨h97, h122⟩ := hr
    interval_cases hn : c.toNat <;> revert hEq <;> decide
  · exact h

theorem camelChars_no_underscore : ∀ (l : List Char) (up : Bool), '_' ∉ camelChars up l := by
  intro l
  induction l with
  | nil => intro up; simp [camelChars]
  | cons c rest ih =>
    intro up
    by_cases h : c = '_'
    · simpa [camelChars, h] using ih true
    · have hup : (if up then c.toUpper else c) ≠ '_' := by
        cases up with
        | false => simpa using h
        | true => simpa using toUpper_ne_underscore c h
      simp only [camelChars, if_neg h, List.mem_cons]
      rintro (hEq | hMem)
      · exact hup hEq.symm
      · exact ih false hMem

theorem camelChars_id_of_no_underscore :
    ∀ (l : List Char), '_' ∉ l → camelChars false l = l := by
  intro l
  induction l with
  | nil => intro _; rfl
  | cons c rest ih =>
    intro h
    have hc : c ≠ '_' := fun hEq => h (hEq ▸ List.mem_cons_self c rest)
    have hrest : '_' ∉ rest := fun hm => h (List.mem_cons_of_mem c hm)
    simp [camelChars, hc, ih hrest]

theorem camelKey_idem (s : String) : camelKey (camelKey s) = camelKey s := by
  unfold camelKey
  exact congrArg String.mk
    (camelChars_id_of_no_underscore _ (camelChars_no_underscore s.data false))

mutual
theorem toCamelCase_idem : (j : Json) → toCamelCase (toCamelCase j) = toCamelCase j
  | .null => rfl
  | .bool _ => rfl
  | .num _ => rfl
  | .str _ => rfl
  | .arr es => congrArg Json.arr (toCamelCaseList_idem es)
  | .obj ms => congrArg Json.obj (toCamelCaseFields_idem ms)
theorem toCamelCaseList_idem :
    (l : List Json) → toCamelCaseList (toCamelCaseList l) = toCamelCaseList l
  | [] => rfl
  | e :: es => by
      show toCamelCase (toCamelCase e) :: toCamelCaseList (toCamelCaseList es)
          = toCamelCase e :: toCamelCaseList es
      rw [toCamelCase_idem e, toCamelCaseList_idem es]
theorem toCamelCaseFields_idem :
    (ms : List (String × Json)) → toCamelCaseFields (toCamelCaseFields ms) = toCamelCaseFields ms
  | [] => rfl
  | (k, v) :: ms => by
      show (camelKey (camelKey k), toCamelCase (toCamelCase v)) :: toCamelCaseFields (toCamelCaseFields ms)
          = (camelKey k, toCamelCase v) :: toCamelCaseFields ms
      rw [camelKey_idem k, toCamelCase_idem v, toCamelCaseFields_idem ms]
end

/-- C6: for every snake_case-keyed JSON value, applying the Data Mapper
`toCamelCase` twice yields the same result as applying it once. -/
theorem toCamelCase_idempotent (v : Json) (_h : snakeKeyed v = true) :
    toCamelCase (toCamelCase v) = toCamelCase v :=
  toCamelCase_idem v

/-- Witness for C6 at the concrete envelope of a stop-loss response. -/
theorem toCamelCase_idempotent_witness :
    snakeKeyed (Json.obj [("stop_loss", Json.null)]) = true ∧
      toCamelCase (toCamelCase (Json.obj [("stop_loss", Json.null)]))
        = toCamelCase (Json.obj [("stop_loss", Json.null)]) :=
  ⟨rfl, toCamelCase_idempotent (Json.obj [("stop_loss", Json.null)]) rfl⟩

/-- C2: the body `placeOrder` sends holds `stock_code`, `order_type` and
`quantity` from the request, holds `price` exactly when the request's
`price` field is defined (with that value), and holds no other key. -/
theorem placeOrder_body_fields (r : PlaceOrderRequest) :
    List.lookup "stock_code" (placeOrderBody r) = some (Json.str r.stockCode) ∧
    List.lookup "order_type" (placeOrderBody r) = some (Json.str r.orderType) ∧
    List.lookup "quantity" (placeOrderBody r) = some (Json.num (JsNumber.val (r.quantity : Rat))) ∧
    List.lookup "price" (placeOrderBody r) = r.price.map Json.num ∧
    (placeOrderBody r).map Prod.fst
      = ["stock_code", "order_type", "quantity"] ++ optKey "price" r.price := by
  obtain ⟨sc, ot, q, p⟩ := r
  cases p <;> simp [placeOrderBody, optKey, List.lookup]

/-- C1: the body `setStopLoss` sends holds `stock_code` from the request,
holds each of the four snake_case threshold keys exactly when the
corresponding camelCase field of the request is defined (with that
field's value), and holds no other key. -/
theorem setStopLoss_body_fields (r : SetStopLossRequest) :
    List.lookup "stock_code" (setStopLossBody r) = some (Json.str r.stockCode) ∧
    List.lookup "take_profit_price" (setStopLossBody r) = r.takeProfitPrice.map Json.num ∧
    List.lookup "take_profit_pct" (setStopLossBody r) = r.takeProfitPct.map Json.num ∧
    List.lookup "stop_loss_price" (setStopLossBody r) = r.stopLossPrice.map Json.num ∧
    List.lookup "stop_loss_pct" (setStopLossBody r) = r.stopLossPct.map Json.num ∧
    (setStopLossBody r).map Prod.fst
      = "stock_code" :: (optKey "take_profit_price" r.takeProfitPrice
          ++ optKey "take_profit_pct" r.takeProfitPct
          ++ optKey "stop_loss_price" r.stopLossPrice
          ++ optKey "stop_loss_pct" r.stopLossPct) := by
  obtain ⟨sc, tp, tpp, sl, slp⟩ := r
  cases tp <;> cases tpp <;> cases sl <;> cases slp <;>
    simp [setStopLossBody, optKey, List.lookup]

/-- C7: when `getOrders` is called with no argument, the request carries
the query parameter `limit=50`. -/
theorem getOrders_default_limit :
    getOrdersParams none = [("limit", Json.num (JsNumber.val 50))] := by
  simp [getOrdersParams]

/-- C8: when the backend responds to `getStopLoss` with the envelope
containing `stop_loss: null`, the operation returns the value `null`
without raising an error. -/
theorem getStopLoss_null_envelope :
    getStopLossResult (.ok (Json.obj [("stop_loss", Json.null)]))
      = .ok (some Json.null) := rfl

/-- Counterexample for C3: the `Promise.all` batch of the initial load
issues six read operations, not seven, and no per-stock `getStopLoss`
call is among them. -/
theorem loadDataBatch_not_seven :
    loadDataBatch.length = 6 ∧ loadDataBatch.all (fun c => ! c.isGetStopLoss) = true := by
  decide

/-- C3 (amended): on mount, the initial load issues six read operations
in one parallel batch, one call each to `getAccount`, `getPositions`,
`getOrders` (no argument), `getAllStopLoss`, `getAccountHistory 30` and
`getPerformanceMetrics`; the per-stock `getStopLoss` is not called. -/
theorem loadDataBatch_six_reads :
    loadDataBatch = [.getAccount, .getPositions, .getOrders none, .getAllStopLoss,
      .getAccountHistory (some 30), .getPerformanceMetrics] ∧
      loadDataBatch.all (fun c => ! c.isGetStopLoss) = true := by
  exact ⟨rfl, by decide⟩

/-- C4: when any one of the six parallel reads of a `loadData` batch
rejects, none of the partial results are committed: the six data slots of
the view state keep their previous values. -/
theorem loadData_all_or_nothing (st : ViewState) (r : LoadResults)
    (h : r.anyRejected = true) :
    (loadData st r).account = st.account ∧
    (loadData st r).positions = st.positions ∧
    (loadData st r).orders = st.orders ∧
    (loadData st r).stopLosses = st.stopLosses ∧
    (loadData st r).accountHistory = st.accountHistory ∧
    (loadData st r).performanceMetrics = st.performanceMetrics := by
  obtain ⟨acc, pos, ord, sls, his, met⟩ := r
  cases acc <;> cases pos <;> cases ord <;> cases sls <;> cases his <;> cases met <;>
    simp_all [loadData, LoadResults.anyRejected, exceptFailed]

/-- Witness for C4 at a concrete batch with one rejected read. -/
theorem loadData_all_or_nothing_witness :
    loadFailResults.anyRejected = true ∧
      ((loadData initialViewState loadFailResults).account = initialViewState.account ∧
       (loadData initialViewState loadFailResults).positions = initialViewState.positions ∧
       (loadData initialViewState loadFailResults).orders = initialViewState.orders ∧
       (loadData initialViewState loadFailResults).stopLosses = initialViewState.stopLosses ∧
       (loadData initialViewState loadFailResults).accountHistory = initialViewState.accountHistory ∧
       (loadData initialViewState loadFailResults).performanceMetrics
         = initialViewState.performanceMetrics) :=
  ⟨rfl, loadData_all_or_nothing initialViewState loadFailResults rfl⟩

theorem jsTrim_empty_dropWhile (q : String) (h : jsTrim q = "") :
    q.data.dropWhile Char.isWhitespace = [] := by
  have hl : ((q.data.dropWhile Char.isWhitespace).reverse.dropWhile Char.isWhitespace).reverse
      = [] := congrArg String.data h
  rw [List.reverse_eq_nil_iff, List.dropWhile_eq_nil_iff] at hl
  by_contra hne
  have hlen : 0 < (q.data.dropWhile Char.isWhitespace).length := List.length_pos.mpr hne
  have hmem : (q.data.dropWhile Char.isWhitespace).get ⟨0, hlen⟩
      ∈ q.data.dropWhile Char.isWhitespace := List.get_mem _ _ _
  have hws := hl _ (List.mem_reverse.mpr hmem)
  exact List.dropWhile_get_zero_not Char.isWhitespace q.data hlen hws

theorem parseIntBase10_of_trim_empty (q : String) (h : jsTrim q = "") :
    parseIntBase10 q = none := by
  unfold parseIntBase10
  rw [jsTrim_empty_dropWhile q h]
  rfl

theorem jsTrim_of_empty : jsTrim "" = "" := rfl

theorem jsToUpperCase_ne_empty (s : String) (h : s ≠ "") : jsToUpperCase s ≠ "" := by
  intro hEq
  apply h
  have hmap : s.data.map Char.toUpper = [] := congrArg String.data hEq
  have hnil : s.data = [] := by simpa using hmap
  obtain ⟨d⟩ := s
  simp only at hnil
  rw [hnil]

/-- Counterexample for C5: a buy whose `placeOrder` call resolves with a
status other than `filled` is a mutating call after which the view does
not reload the read set. -/
theorem handleBuy_rejected_no_reload :
    ((handleBuy "600519" "100"
        (.ok { orderId := 1, status := "rejected", message := "insufficient funds" })).any
      UiAction.isPlaceOrderCall = true) ∧
    UiAction.loadDataAction ∉ handleBuy "600519" "100"
        (.ok { orderId := 1, status := "rejected", message := "insufficient funds" }) := by
  decide

/-- C5 (amended): the view reloads the full read set after a buy or sell
exactly when the inputs were valid and the resolved order status is
`filled`, and after the stop-loss save handler (with a stock selected)
exactly when the awaited mutating call resolved; a buy or sell whose
result has any other status, and any rejected mutating call, triggers no
reload. -/
theorem reload_after_mutation (sc q sel tp tpp sl slp : String)
    (res : Except ApiError PlaceOrderResponse) (outcome : Except ApiError Unit) :
    (UiAction.loadDataAction ∈ handleBuy sc q res ↔
      (orderInputValid sc q = true ∧ ∃ r, res = .ok r ∧ r.status = "filled")) ∧
    (UiAction.loadDataAction ∈ handleSell sc q res ↔
      (orderInputValid sc q = true ∧ ∃ r, res = .ok r ∧ r.status = "filled")) ∧
    (sel ≠ "" →
      (UiAction.loadDataAction ∈ handleSaveStopLoss sel tp tpp sl slp outcome ↔
        outcome = .ok ())) := by
  refine ⟨?_, ?_, ?_⟩
  · by_cases h1 : jsTrim sc = "" ∨ jsTrim q = ""
    · simp [handleBuy, orderInputValid, h1]
    · rcases hpi : parseIntBase10 q with _ | n
      · simp [handleBuy, orderInputValid, h1, hpi]
      · by_cases hn : n ≤ 0
        · have hnpos : ¬ (0 < n) := by omega
          simp [handleBuy, orderInputValid, h1, hpi, hn, hnpos]
        · have hpos : 0 < n := by omega
          rcases res with e | r
          · simp [handleBuy, orderInputValid, h1, hpi, hn, hpos]
          · by_cases hst : r.status = "filled" <;>
              simp [handleBuy, orderInputValid, h1, hpi, hn, hst, hpos]
  · by_cases h1 : jsTrim sc = "" ∨ jsTrim q = ""
    · simp [handleSell, orderInputValid, h1]
    · rcases hpi : parseIntBase10 q with _ | n
      · simp [handleSell, orderInputValid, h1, hpi]
      · by_cases hn : n ≤ 0
        · have hnpos : ¬ (0 < n) := by omega
          simp [handleSell, orderInputValid, h1, hpi, hn, hnpos]
        · have hpos : 0 < n := by omega
          rcases res with e | r
          · simp [handleSell, orderInputValid, h1, hpi, hn, hpos]
          · by_cases hst : r.status = "filled" <;>
              simp [handleSell, orderInputValid, h1, hpi, hn, hst, hpos]
  · intro hsel
    by_cases hall : tp = "" ∧ tpp = "" ∧ sl = "" ∧ slp = "" <;>
      rcases outcome with e | u
    · simp [handleSaveStopLoss, hsel, hall]
    · cases u; simp [handleSaveStopLoss, hsel, hall]
    · simp [handleSaveStopLoss, hsel, hall]
    · cases u; simp [handleSaveStopLoss, hsel, hall]

/-- Witness for C5 (amended) at a filled buy and a successful stop-loss
delete. -/
theorem reload_after_mutation_witness :
    UiAction.loadDataAction ∈ handleBuy "600519" "100"
        (.ok { orderId := 1, status := "filled", message := "ok" }) ∧
    UiAction.loadDataAction ∈ handleSaveStopLoss "AAPL" "" "" "" "" (.ok ()) := by
  constructor
  · exact ((reload_after_mutation "600519" "100" "AAPL" "" "" "" ""
        (.ok { orderId := 1, status := "filled", message := "ok" }) (.ok ())).1).mpr
      ⟨by decide, ⟨_, rfl, rfl⟩⟩
  · exact (((reload_after_mutation "600519" "100" "AAPL" "" "" "" ""
        (.ok { orderId := 1, status := "filled", message := "ok" }) (.ok ())).2.2
      (by decide)).mpr rfl)

/-- C9: when the stop-loss save handler runs with a stock selected and
all four optional inputs empty, it calls `deleteStopLoss` for the
selected stock code and never calls `setStopLoss`; moreover any
`setStopLoss` call this handler ever issues has at least one of the four
optional fields set. -/
theorem saveStopLoss_empty_means_delete (sel tp tpp sl slp : String)
    (outcome : Except ApiError Unit) :
    (sel ≠ "" → tp = "" → tpp = "" → sl = "" → slp = "" →
      UiAction.deleteStopLossCall sel ∈ handleSaveStopLoss sel tp tpp sl slp outcome ∧
        (handleSaveStopLoss sel tp tpp sl slp outcome).all
          (fun a => ! a.isSetStopLossCall) = true) ∧
    (∀ req : SetStopLossRequest,
      UiAction.setStopLossCall req ∈ handleSaveStopLoss sel tp tpp sl slp outcome →
        (req.takeProfitPrice.isSome || req.takeProfitPct.isSome ||
          req.stopLossPrice.isSome || req.stopLossPct.isSome) = true) := by
  constructor
  · intro hsel htp htpp hsl hslp
    subst htp; subst htpp; subst hsl; subst hslp
    rcases outcome with e | u
    · exact ⟨by simp [handleSaveStopLoss, hsel],
        by simp [handleSaveStopLoss, hsel, UiAction.isSetStopLossCall]⟩
    · exact ⟨by simp [handleSaveStopLoss, hsel],
        by simp [handleSaveStopLoss, hsel, UiAction.isSetStopLossCall]⟩
  · intro req hmem
    by_cases hsel : sel = ""
    · simp [handleSaveStopLoss, hsel] at hmem
    · by_cases hall : tp = "" ∧ tpp = "" ∧ sl = "" ∧ slp = ""
      · rcases outcome with e | u <;> simp [handleSaveStopLoss, hsel, hall] at hmem
      · have hone : tp ≠ "" ∨ tpp ≠ "" ∨ sl ≠ "" ∨ slp ≠ "" := by tauto
        rcases outcome with e | u <;>
          simp [handleSaveStopLoss, hsel, hall] at hmem <;>
          subst hmem <;>
          rcases hone with h | h | h | h <;>
          simp [h]

/-- Witness for C9 at an all-empty save (delete) and at a save with a
take-profit price set. -/
theorem saveStopLoss_empty_means_delete_witness :
    UiAction.deleteStopLossCall "AAPL" ∈ handleSaveStopLoss "AAPL" "" "" "" "" (.ok ()) ∧
      (({ stockCode := "AAPL", takeProfitPrice := some (jsParseFloat "90"),
          takeProfitPct := none, stopLossPrice := none,
          stopLossPct := none : SetStopLossRequest }).takeProfitPrice.isSome ||
        ({ stockCode := "AAPL", takeProfitPrice := some (jsParseFloat "90"),
           takeProfitPct := none, stopLossPrice := none,
           stopLossPct := none : SetStopLossRequest }).takeProfitPct.isSome ||
        ({ stockCode := "AAPL", takeProfitPrice := some (jsParseFloat "90"),
           takeProfitPct := none, stopLossPrice := none,
           stopLossPct := none : SetStopLossRequest }).stopLossPrice.isSome ||
        ({ stockCode := "AAPL", takeProfitPrice := some (jsParseFloat "90"),
           takeProfitPct := none, stopLossPrice := none,
           stopLossPct := none : SetStopLossRequest }).stopLossPct.isSome) = true := by
  constructor
  · exact ((saveStopLoss_empty_means_delete "AAPL" "" "" "" "" (.ok ())).1
      (by decide) rfl rfl rfl rfl).1
  · refine (saveStopLoss_empty_means_delete "AAPL" "90" "" "" "" (.ok ())).2
      { stockCode := "AAPL", takeProfitPrice := some (jsParseFloat "90"),
        takeProfitPct := none, stopLossPrice := none, stopLossPct := none } ?_
    have htr : handleSaveStopLoss "AAPL" "90" "" "" "" (.ok ())
        = UiAction.setStopLossCall
            { stockCode := "AAPL", takeProfitPrice := some (jsParseFloat "90"),
              takeProfitPct := none, stopLossPrice := none, stopLossPct := none }
          :: [UiAction.messageShown false "止盈止损设置已保存", UiAction.loadDataAction,
              UiAction.closeModalAction] := by
      rfl
    rw [htr]
    exact List.mem_cons_self _ _

/-- C10: whenever the rejection condition holds, neither handler calls
`placeOrder` and both show an error message; otherwise both handlers
call `placeOrder` with the trimmed upper-cased stock code and the parsed
positive integer quantity, so the call-site precondition (non-empty stock
code, positive integer quantity) always holds. -/
theorem order_handlers_guard (sc q : String) (res : Except ApiError PlaceOrderResponse) :
    (orderInputRejected sc q = true →
      ((handleBuy sc q res).all (fun a => ! a.isPlaceOrderCall) = true ∧
        (handleBuy sc q res).any UiAction.isErrorMessage = true ∧
        (handleSell sc q res).all (fun a => ! a.isPlaceOrderCall) = true ∧
        (handleSell sc q res).any UiAction.isErrorMessage = true)) ∧
    (orderInputRejected sc q = false →
      ∃ n : Int, parseIntBase10 q = some n ∧ 0 < n ∧ jsToUpperCase (jsTrim sc) ≠ "" ∧
        UiAction.placeOrderCall { stockCode := jsToUpperCase (jsTrim sc),
                                  orderType := "buy", quantity := n, price := none }
          ∈ handleBuy sc q res ∧
        UiAction.placeOrderCall { stockCode := jsToUpperCase (jsTrim sc),
                                  orderType := "sell", quantity := n, price := none }
          ∈ handleSell sc q res) := by
  by_cases h1 : jsTrim sc = "" ∨ jsTrim q = ""
  · have hrej : orderInputRejected sc q = true := by
      rcases h1 with h | h
      · simp [orderInputRejected, h]
      · simp [orderInputRejected, parseIntBase10_of_trim_empty q h]
    constructor
    · intro _
      refine ⟨?_, ?_, ?_, ?_⟩ <;>
        simp [handleBuy, handleSell, h1, UiAction.isPlaceOrderCall, UiAction.isErrorMessage]
    · intro hfalse
      simp [hrej] at hfalse
  · push_neg at h1
    obtain ⟨hsc, hq⟩ := h1
    rcases hpi : parseIntBase10 q with _ | n
    · have hrej : orderInputRejected sc q = true := by simp [orderInputRejected, hpi]
      constructor
      · intro _
        refine ⟨?_, ?_, ?_, ?_⟩ <;>
          simp [handleBuy, handleSell, hsc, hq, hpi,
            UiAction.isPlaceOrderCall, UiAction.isErrorMessage]
      · intro hfalse
        simp [hrej] at hfalse
    · by_cases hn : n ≤ 0
      · have hrej : orderInputRejected sc q = true := by simp [orderInputRejected, hpi, hn]
        constructor
        · intro _
          refine ⟨?_, ?_, ?_, ?_⟩ <;>
            simp [handleBuy, handleSell, hsc, hq, hpi, hn,
              UiAction.isPlaceOrderCall, UiAction.isErrorMessage]
        · intro hfalse
          simp [hrej] at hfalse
      · have hpos : 0 < n := by omega
        have hqne : q ≠ "" := by
          intro hq0
          rw [hq0] at hq
          exact hq jsTrim_of_empty
        have hrej : orderInputRejected sc q = false := by
          simp [orderInputRejected, hpi, hsc, hqne, hn]
        constructor
        · intro htrue
          simp [hrej] at htrue
        · intro _
          refine ⟨n, rfl, hpos, jsToUpperCase_ne_empty _ hsc, ?_, ?_⟩ <;>
            simp [handleBuy, handleSell, hsc, hq, hpi, hn]

/-- Witness for C10 at empty inputs (rejected, no `placeOrder`) and at
valid inputs (a `placeOrder` call with the parsed quantity). -/
theorem order_handlers_guard_witness :
    ((handleBuy "" "" (.error { detailMessage := none })).all
        (fun a => ! a.isPlaceOrderCall) = true ∧
      (handleBuy "" "" (.error { detailMessage := none })).any
        UiAction.isErrorMessage = true ∧
      (handleSell "" "" (.error { detailMessage := none })).all
        (fun a => ! a.isPlaceOrderCall) = true ∧
      (handleSell "" "" (.error { detailMessage := none })).any
        UiAction.isErrorMessage = true) ∧
    (∃ n : Int, parseIntBase10 "100" = some n ∧ 0 < n ∧
      jsToUpperCase (jsTrim " 600519 ") ≠ "" ∧
      UiAction.placeOrderCall { stockCode := jsToUpperCase (jsTrim " 600519 "),
                                orderType := "buy", quantity := n, price := none }
        ∈ handleBuy " 600519 " "100" (.error { detailMessage := none }) ∧
      UiAction.placeOrderCall { stockCode := jsToUpperCase (jsTrim " 600519 "),
                                orderType := "sell", quantity := n, price := none }
        ∈ handleSell " 600519 " "100" (.error { detailMessage := none })) := by
  constructor
  · exact (order_handlers_guard "" "" (.error { detailMessage := none })).1 (by decide)
  · exact (order_handlers_guard " 600519 " "100" (.error { detailMessage := none })).2 (by decide)
